import Mathlib

/-!
Verification of the query-building and pagination core of a Go client
library for a card-catalog HTTP service (`mtg` package: `Set`/`Card`
entities, a fluent `SetQuery` filter accumulator, link-header driven
pagination, total-count extraction, and the error envelope protocol).

The Go sources are shallowly embedded: maps become association lists,
HTTP traffic becomes an explicit `Network` function from request URLs to
responses, and a response body is represented by the outcomes of the JSON
decodings that the code attempts on it.  In-place mutation of the filter
accumulator (a Go map) is modelled with an explicit store of accumulators
addressed by identifiers, so that aliasing between an accumulator and its
copy is observable.
-/

set_option autoImplicit false

namespace Mtg

/-- `BoosterContent` represents one or more types of cards within a
booster (Go: `type BoosterContent []string`). -/
abbrev BoosterContent := List String

/-- `SetCode` representing one specific Set of cards
(Go: `type SetCode string`). -/
abbrev SetCode := String

/-- `Set` stores information about a mtg-set, with the fields of the Go
struct `Set`. -/
structure Set where
  setCode : SetCode
  name : String
  block : String
  gathererCode : String
  oldCode : String
  magicCardsInfoCode : String
  releaseDate : String
  border : String
  expansion : String
  onlineOnly : Bool
  booster : List BoosterContent
  deriving DecidableEq, Repr

/-- `Ruling` contains additional rule information about the card
(Go struct `Ruling`). -/
structure Ruling where
  date : String
  text : String
  deriving DecidableEq, Repr

/-- `ForeignCardName` represents the name of the card in an other
language (Go struct `ForeignCardName`; `MultiverseID uint` becomes `Nat`). -/
structure ForeignCardName where
  name : String
  language : String
  multiverseID : Nat
  deriving DecidableEq, Repr

/-- `Legality` stores information about legality notices for a specific
format (Go struct `Legality`). -/
structure Legality where
  format : String
  legality : String
  deriving DecidableEq, Repr

/-- `Card` stores information about one single card, with the fields of
the Go struct `Card`.  The Go `CMC float64` field is carried as a `Rat`
(the claims under verification never inspect it; no floating-point
reasoning is performed on it). -/
structure Card where
  name : String
  names : List String
  manaCost : String
  cmc : Rat
  colors : List String
  colorIdentity : List String
  type : String
  types : List String
  supertypes : List String
  subtypes : List String
  rarity : String
  set : SetCode
  setName : String
  text : String
  flavor : String
  artist : String
  number : String
  power : String
  toughness : String
  loyalty : String
  layout : String
  multiverseID : String
  variations : List String
  imageURL : String
  watermark : String
  border : String
  timeshifted : Bool
  hand : Int
  life : Int
  reserved : Bool
  releaseDate : String
  starter : Bool
  rulings : List Ruling
  foreignNames : List ForeignCardName
  originalText : String
  originalType : String
  id : String
  source : String
  legalities : List Legality
  deriving DecidableEq, Repr

/-- `ServerError` is an error implementation for server messages
(Go struct `ServerError`, JSON fields `status` and `error`). -/
structure ServerError where
  status : String
  message : String
  deriving DecidableEq, Repr

/-- `ServerError.Error` implements the Go `error` interface:
it returns the `Message` field. -/
def ServerError.Error (s : ServerError) : String :=
  s.message

/-- The JSON envelope decoded by `fetchSets`: an anonymous Go struct with
a plural field `Sets []*Set` and a singular field `Set *Set`.  A nil
slice and an empty slice are both the empty list; the nil pointer is
`none`. -/
structure SetsEnvelope where
  sets : List Set
  set : Option Set
  deriving DecidableEq, Repr

/-- `cardResponse` defines the response from the cards API Get request
(Go struct `cardResponse`: `Card *Card`, `Cards []*Card`). -/
structure CardResponse where
  card : Option Card
  cards : List Card
  deriving Repr

/-- The errors the embedded operations can produce.  Each constructor
records one exit path of the Go code: a transport failure from
`http.Get`, the `errors.New(r.Status)` branch of `checkError`, the
decoded `ServerError` branch of `checkError`, a JSON decode failure of a
success body, a `strconv.Atoi` failure on the total-count header value,
and the `fmt.Errorf("... not found")` errors of the singular lookups. -/
inductive MtgErr where
  | transport (msg : String)
  | rawStatus (statusLine : String)
  | server (e : ServerError)
  | decodeFailure
  | format (value : String)
  | notFound (msg : String)
  deriving DecidableEq, Repr

/-- The message carried by an error: for `server` it is
`ServerError.Error`, i.e. the decoded `message` field; for `rawStatus` it
is the raw HTTP status line that `errors.New(r.Status)` wraps. -/
def MtgErr.errorMessage : MtgErr → String
  | .transport m => m
  | .rawStatus s => s
  | .server e => e.Error
  | .decodeFailure => "decode failure"
  | .format v => "invalid syntax: " ++ v
  | .notFound m => m

/-- An HTTP response as the embedded code observes it.  `headers` models
Go's `http.Header` (`map[string][]string`) as an association list with
unique keys.  The response body is a byte stream in Go; here it is
represented by the outcomes of the JSON decodings the code attempts on
it: as the sets envelope, as the cards envelope, and as a `ServerError`
(`none` meaning that decoding fails). -/
structure HttpResponse where
  statusCode : Nat
  status : String
  headers : List (String × List String)
  setsBody : Option SetsEnvelope
  cardsBody : Option CardResponse
  errBody : Option ServerError

/-- A network: what `http.Get` returns for each request URL.  `.error`
is a transport-level failure carrying its message. -/
def Network := String → Except String HttpResponse

/-- Decidable equality of fetch results, for evaluating the embedding at
concrete networks. -/
instance {ε α : Type} [DecidableEq ε] [DecidableEq α] :
    DecidableEq (Except ε α)
  | .ok x, .ok y =>
    if h : x = y then .isTrue (by rw [h])
    else .isFalse (by intro hc; cases hc; exact h rfl)
  | .ok _, .error _ => .isFalse (by intro hc; cases hc)
  | .error _, .ok _ => .isFalse (by intro hc; cases hc)
  | .error x, .error y =>
    if h : x = y then .isTrue (by rw [h])
    else .isFalse (by intro hc; cases hc; exact h rfl)

/-- Lookup of a header key in the response header map, with presence
information, modelling Go's `vals, ok := header[key]`. -/
def headerGet (headers : List (String × List String)) (key : String) :
    Option (List String) :=
  match headers with
  | [] => none
  | p :: rest => if p.1 = key then some p.2 else headerGet rest key

/-- The package-level base URL of the catalog service.
Modelled from the spec: the constant `queryURL` is declared outside the
provided sources; the spec (§6, §9) describes it as the single fixed
catalog base URL, a process-wide configuration value.  Its exact text is
irrelevant to every claim. -/
def queryURL : String := "https://api.magicthegathering.io/v1/"

/-- `checkError` from `card.go`: a 200 status is no error; otherwise the
body is decoded as a `ServerError` envelope — on decode failure the
result is `errors.New(r.Status)` (the raw status line), otherwise the
decoded `ServerError` itself. -/
def checkError (r : HttpResponse) : Option MtgErr :=
  if r.statusCode = 200 then
    none
  else
    match r.errBody with
    | none => some (.rawStatus r.status)
    | some sverr => some (.server sverr)

/-- `fetchSets` from the sets file: GET the URL, fail on transport error,
then on `checkError`, then decode the body as the `SetsEnvelope`; if the
singular `Set` pointer is non-nil the result is the one-element list
holding it, otherwise the plural `Sets` slice.  The response headers are
returned alongside. -/
def fetchSets (net : Network) (url : String) :
    Except MtgErr (List Set × List (String × List String)) :=
  match net url with
  | .error e => .error (.transport e)
  | .ok resp =>
    match checkError resp with
    | some e => .error e
    | none =>
      match resp.setsBody with
      | none => .error .decodeFailure
      | some sr =>
        match sr.set with
        | some s => .ok ([s], resp.headers)
        | none => .ok (sr.sets, resp.headers)

/-- Drops leading spaces and tabs from a character list (whitespace
tolerance of the link-segment match). -/
def dropWS : List Char → List Char
  | [] => []
  | c :: rest => if c = ' ' ∨ c = '\t' then dropWS rest else c :: rest

/-- Splits a character list at the first occurrence of `stop`, returning
the characters before it and the characters after it, or `none` when
`stop` does not occur. -/
def splitAtChar (stop : Char) : List Char → Option (List Char × List Char)
  | [] => none
  | c :: rest =>
    if c = stop then some ([], rest)
    else
      match splitAtChar stop rest with
      | none => none
      | some (pre, post) => some (c :: pre, post)

/-- Modelled from the spec: the regular expression `linkRE` that `All`
applies to each comma-separated link segment is declared outside the
provided sources.  Per the spec (§4.3 Link-Header Parser) a segment has
the form `<URL>; rel="REL"`: the URL is matched inside angle brackets and
the relation inside quotes, tolerating leading whitespace; a segment that
does not match this shape is silently skipped (`none`, the nil match of
`FindStringSubmatch`).  On a match the result is the pair of the two
capture groups `(URL, REL)`. -/
def linkMatch (segment : String) : Option (String × String) :=
  match splitAtChar '>' (dropWS segment.data) with
  | none => none
  | some (urlPart, afterURL) =>
    match urlPart with
    | [] => none
    | c :: url =>
      if c = '<' then
        match afterURL with
        | ';' :: ' ' :: 'r' :: 'e' :: 'l' :: '=' :: '"' :: relPart =>
          match splitAtChar '"' relPart with
          | none => none
          | some (rel, _) => some (String.mk url, String.mk rel)
        | _ => none
      else none

/-- `strings.Split(s, ",")` from the Go standard library: the substrings
between occurrences of the comma, empties preserved (the split of the
empty string is the one-element list of the empty string). -/
def splitCommaAux : List Char → List Char → List String
  | [], cur => [String.mk cur.reverse]
  | c :: rest, cur =>
    if c = ',' then String.mk cur.reverse :: splitCommaAux rest []
    else splitCommaAux rest (c :: cur)

/-- The comma split of a string. -/
def splitComma (s : String) : List String :=
  splitCommaAux s.data []

/-- One iteration of the inner loop of `All` over the comma-separated
parts of the link header value: a part that matches `linkRE` with
relation `next` overwrites `nextURL` with its URL; any other part leaves
`nextURL` unchanged. -/
def scanStep (acc link : String) : String :=
  match linkMatch link with
  | some m => if m.2 = "next" then m.1 else acc
  | none => acc

/-- The inner loop of `All` over the comma-separated parts of the link
header value, starting from `nextURL = ""` (the Go loop has no break, so
every matching `next` part overwrites the previous one). -/
def scanNext (parts : List String) : String :=
  parts.foldl scanStep ""

/-- The next-URL computation of `All` applied to the headers of one
response: `nextURL` is reset to `""`; if a `Link` key is present, the
first header value is split on `","` and scanned by `scanNext`.
(Go indexes `linkH[0]` unconditionally, which panics on a present key
with an empty value list — a state `http.Header` never produces; the
empty list is mapped to scanning the empty string.) -/
def nextURLOfHeader (headers : List (String × List String)) : String :=
  match headerGet headers "Link" with
  | some linkH => scanNext (splitComma (linkH.headD ""))
  | none => ""

/-- Entries of a `setQuery` / `url.Values` map: an association list with
unique keys.  `mapSet m k v` is Go's `m[k] = v`: it overwrites the value
of an existing binding in place, or appends a new binding. -/
def mapSet (m : List (String × String)) (k v : String) :
    List (String × String) :=
  match m with
  | [] => [(k, v)]
  | p :: rest => if p.1 = k then (k, v) :: rest else p :: mapSet rest k v

/-- Go map lookup `m[k]` on the association-list model. -/
def mapGet (m : List (String × String)) (k : String) : Option String :=
  match m with
  | [] => none
  | p :: rest => if p.1 = k then some p.2 else mapGet rest k

/-- The number of bindings an association list holds for a key. -/
def countKey (m : List (String × String)) (k : String) : Nat :=
  match m with
  | [] => 0
  | p :: rest => (if p.1 = k then 1 else 0) + countKey rest k

/-- Byte-wise strict ordering on character lists (the ordering
`url.Values.Encode` sorts keys by). -/
def charListLt : List Char → List Char → Bool
  | [], [] => false
  | [], _ :: _ => true
  | _ :: _, [] => false
  | a :: as, b :: bs =>
    if a.toNat < b.toNat then true
    else if b.toNat < a.toNat then false
    else charListLt as bs

/-- Byte-wise strict ordering on strings. -/
def keyLt (a b : String) : Bool :=
  charListLt a.data b.data

/-- Insertion of a binding into a key-sorted association list
(ascending keys), used to model the key sorting of
`url.Values.Encode`. -/
def insertByKey (p : String × String) :
    List (String × String) → List (String × String)
  | [] => [p]
  | q :: rest =>
    if keyLt q.1 p.1 then q :: insertByKey p rest else p :: q :: rest

/-- Sorts an association list by key, ascending. -/
def sortByKey (m : List (String × String)) : List (String × String) :=
  m.foldr insertByKey []

/-- `url.Values.Encode`: the values in `k=v` form joined by `&` with the
keys sorted.  (Percent-escaping of keys and values is not modelled; no
claim depends on the escaping of individual bytes, only on the encoding
being a deterministic function of the entries.) -/
def encodeVals (m : List (String × String)) : String :=
  String.intercalate "&" ((sortByKey m).map (fun p => p.1 ++ "=" ++ p.2))

/-- The decimal digit character for `n < 10`. -/
def digitChar (n : Nat) : Char :=
  Char.ofNat ('0'.toNat + n)

/-- The decimal digits of a number, most significant first, with an
explicit fuel bound (always sufficient at `n + 1`). -/
def natDigitsAux : Nat → Nat → List Char
  | 0, _ => []
  | fuel + 1, n =>
    if n < 10 then [digitChar n]
    else natDigitsAux fuel (n / 10) ++ [digitChar (n % 10)]

/-- `strconv.Itoa` on the embedded unbounded integers: the decimal
representation, with a leading minus sign when negative. -/
def Itoa (i : Int) : String :=
  match i with
  | .ofNat n => String.mk (natDigitsAux (n + 1) n)
  | .negSucc m => "-" ++ String.mk (natDigitsAux (m + 2) (m + 1))

/-- All characters are decimal digits, of a non-empty list; returns the
denoted number. -/
def parseDigits : List Char → Option Nat
  | [] => none
  | [c] => if c.isDigit then some (c.toNat - '0'.toNat) else none
  | c :: rest =>
    if c.isDigit then
      match parseDigits rest with
      | none => none
      | some n => some ((c.toNat - '0'.toNat) * 10 ^ rest.length + n)
    else none

/-- `strconv.Atoi`: an optional single sign followed by at least one
decimal digit; anything else is an error (`none`).  (Go additionally
errors on values outside the machine `int` range; no claim exercises
values of that magnitude, and the embedded integers are unbounded.) -/
def Atoi (s : String) : Option Int :=
  match s.data with
  | '+' :: rest => (parseDigits rest).map (fun n => (n : Int))
  | '-' :: rest => (parseDigits rest).map (fun n => -(n : Int))
  | l => (parseDigits l).map (fun n => (n : Int))

/-- The request URL built by `PageS`: accumulated filters plus the
`page` and `pageSize` parameters, encoded onto the sets endpoint. -/
def pageURL (q : List (String × String)) (pageNum pageSize : Int) : String :=
  queryURL ++ "sets?" ++
    encodeVals (mapSet (mapSet q "page" (Itoa pageNum)) "pageSize"
      (Itoa pageSize))

/-- `setQuery.PageS` returns Sets of the given page and page size plus
the total count of sets matching the query, as the Go triple
`(sets, totalSetCount, err)`: on a fetch error `(nil, 0, err)`; otherwise
`totalSetCount` is `len(sets)`, overridden by the parsed `Total-Count`
header value when that header is present with at least one value — and
when that value fails `strconv.Atoi`, the result is `(nil, 0, err)` with
the parse error. -/
def PageS (q : List (String × String)) (net : Network)
    (pageNum pageSize : Int) : List Set × Int × Option MtgErr :=
  match fetchSets net (pageURL q pageNum pageSize) with
  | .error e => ([], 0, some e)
  | .ok (sets, headers) =>
    match headerGet headers "Total-Count" with
    | some (t0 :: _) =>
      match Atoi t0 with
      | none => ([], 0, some (.format t0))
      | some n => (sets, n, none)
    | some [] => (sets, (sets.length : Int), none)
    | none => (sets, (sets.length : Int), none)

/-- `setQuery.Page`: the Sets of a given page with the default page size
of 500, by delegation to `PageS`. -/
def Page (q : List (String × String)) (net : Network) (pageNum : Int) :
    List Set × Int × Option MtgErr :=
  PageS q net pageNum 500

/-- The request URL `All` starts from: accumulated filters only, no
page parameters. -/
def allStartURL (q : List (String × String)) : String :=
  queryURL ++ "sets?" ++ encodeVals q

/-- The `for nextURL != ""` loop of `All`, with an explicit fuel bound on
the number of iterations (`none` when the fuel runs out before the loop
terminates).  Each iteration fetches `nextURL`; a fetch error returns the
Go pair `(nil, err)` discarding the accumulator; otherwise the next URL
is recomputed from the response headers and the page's sets are appended. -/
def allAux (net : Network) :
    Nat → String → List Set → Option (List Set × Option MtgErr)
  | 0, nextURL, allSets =>
    if nextURL = "" then some (allSets, none) else none
  | fuel + 1, nextURL, allSets =>
    if nextURL = "" then some (allSets, none)
    else
      match fetchSets net nextURL with
      | .error e => some ([], some e)
      | .ok (sets, headers) =>
        allAux net fuel (nextURLOfHeader headers) (allSets ++ sets)

/-- `setQuery.All` returns all Sets which match the query, following
`Link: rel="next"` headers from the initial filtered URL. -/
def All (q : List (String × String)) (net : Network) (fuel : Nat) :
    Option (List Set × Option MtgErr) :=
  allAux net fuel (allStartURL q) []

/-- `SetCode.Fetch` returns the Set of the given SetCode: a `fetchSets`
of the `sets/{code}` endpoint, demanding exactly one result
(`fmt.Errorf("Set %q not found", s)` otherwise). -/
def SetCode.Fetch (net : Network) (s : SetCode) : Except MtgErr Set :=
  match fetchSets net (queryURL ++ "sets/" ++ s) with
  | .error e => .error e
  | .ok (sets, _) =>
    match sets with
    | [s0] => .ok s0
    | _ => .error (.notFound ("Set \"" ++ s ++ "\" not found"))

/-- Modelled from the spec: `decodeCards` is declared outside the
provided sources; per the spec (§3 Page Envelope, §4.2 step 3) it decodes
the body as the `cardResponse` envelope declared in `card.go` — a decode
failure is an error, a non-nil singular `Card` field takes precedence and
is wrapped into a one-element list, and otherwise the plural `Cards`
field is the result. -/
def decodeCards (body : Option CardResponse) : Except MtgErr (List Card) :=
  match body with
  | none => .error .decodeFailure
  | some cr =>
    match cr.card with
    | some c => .ok [c]
    | none => .ok cr.cards

/-- `Fetch` from `card.go` collects a card by ID or MultiverseID:
GET `cards/{id}`, fail on transport error, then on `checkError`, then
`decodeCards` the body, demanding exactly one result
(`fmt.Errorf("Card with ID %s not found", filterID)` otherwise). -/
def Fetch (net : Network) (filterID : String) : Except MtgErr Card :=
  match net (queryURL ++ "cards/" ++ filterID) with
  | .error e => .error (.transport e)
  | .ok resp =>
    match checkError resp with
    | some e => .error e
    | none =>
      match decodeCards resp.cardsBody with
      | .error e => .error e
      | .ok cards =>
        match cards with
        | [c] => .ok c
        | _ => .error (.notFound ("Card with ID " ++ filterID ++ " not found"))

/-- A store of filter accumulators addressed by identifiers, making the
in-place mutation of the Go map `setQuery` observable: `NewSetQuery`
allocates a fresh empty map, `Where` mutates the addressed map in place,
and `Copy` allocates a fresh map holding the same entries. -/
structure Store where
  queries : List (Nat × List (String × String))
  nextId : Nat
  deriving Repr

/-- Lookup of the entries of the accumulator with identifier `i`. -/
def qfind (qs : List (Nat × List (String × String))) (i : Nat) :
    Option (List (String × String)) :=
  match qs with
  | [] => none
  | p :: rest => if p.1 = i then some p.2 else qfind rest i

/-- The entries held by accumulator `i` of the store. -/
def Store.entries (s : Store) (i : Nat) : Option (List (String × String)) :=
  qfind s.queries i

/-- In-place update of the entries of accumulator `i`. -/
def qupdate (qs : List (Nat × List (String × String))) (i : Nat)
    (c v : String) : List (Nat × List (String × String)) :=
  qs.map (fun p => if p.1 = i then (p.1, mapSet p.2 c v) else p)

/-- `NewSetQuery` returns a new `SetQuery`: `make(setQuery)` allocates a
fresh empty map; the store hands out the next identifier. -/
def NewSetQuery (s : Store) : Store × Nat :=
  ({ queries := (s.nextId, []) :: s.queries, nextId := s.nextId + 1 },
    s.nextId)

/-- `setQuery.Where` filters the given column by the given value:
`q[string(col)] = qry` mutates the map in place (and Go returns the same
map, so the result identifier is the argument identifier). -/
def Where (s : Store) (i : Nat) (col qry : String) : Store :=
  { s with queries := qupdate s.queries i col qry }

/-- `setQuery.Copy` creates a copy of the `SetQuery`: a fresh map is
allocated and every entry of `q` is inserted into it. -/
def Copy (s : Store) (i : Nat) : Store × Nat :=
  ({ queries := (s.nextId, (s.entries i).getD []) :: s.queries,
     nextId := s.nextId + 1 },
    s.nextId)

/-- A sequence of `Where` calls applied to accumulator `i`. -/
def applyWheres (s : Store) (i : Nat) (ops : List (String × String)) :
    Store :=
  ops.foldl (fun st p => Where st i p.1 p.2) s

/-- The URL of the last comma-separated segment that matches the link
shape with relation `next`, if any.  This is the spec's tie-break rule
with first replaced by last: a later `next` segment takes precedence over
every earlier one. -/
def lastNext : List String → Option String
  | [] => none
  | p :: ps =>
    match lastNext ps with
    | some u => some u
    | none =>
      match linkMatch p with
      | some m => if m.2 = "next" then some m.1 else none
      | none => none

/-- A `Set` that is blank except for its name, for concrete test
networks. -/
def mkSet (name : String) : Set :=
  { setCode := "", name := name, block := "", gathererCode := "",
    oldCode := "", magicCardsInfoCode := "", releaseDate := "",
    border := "", expansion := "", onlineOnly := false, booster := [] }

/-- A non-success response whose body decodes as the `ServerError`
envelope `status "404"`, `error "Not Found"`. -/
def ex404 : HttpResponse :=
  { statusCode := 404, status := "404 Not Found", headers := [],
    setsBody := none, cardsBody := none,
    errBody := some { status := "404", message := "Not Found" } }

/-- A non-success response whose body does not decode as the
`ServerError` envelope. -/
def ex500 : HttpResponse :=
  { statusCode := 500, status := "500 Internal Server Error",
    headers := [], setsBody := none, cardsBody := none, errBody := none }

/-- A one-set page carrying a `Total-Count` header of `"1234"`. -/
def respTotal : HttpResponse :=
  { statusCode := 200, status := "200 OK",
    headers := [("Total-Count", ["1234"])],
    setsBody := some { sets := [mkSet "A"], set := none },
    cardsBody := none, errBody := none }

/-- A two-set page with no `Total-Count` header. -/
def respNoTotal : HttpResponse :=
  { statusCode := 200, status := "200 OK", headers := [],
    setsBody := some { sets := [mkSet "A", mkSet "B"], set := none },
    cardsBody := none, errBody := none }

/-- A page whose `Total-Count` header value is not an integer. -/
def respBadTotal : HttpResponse :=
  { statusCode := 200, status := "200 OK",
    headers := [("Total-Count", ["not-a-number"])],
    setsBody := some { sets := [mkSet "A"], set := none },
    cardsBody := none, errBody := none }

/-- A network serving the three single-page responses above on pages 1,
2 and 3 of an unfiltered size-2 query. -/
def netPages : Network := fun u =>
  if u = pageURL [] 1 2 then .ok respTotal
  else if u = pageURL [] 2 2 then .ok respNoTotal
  else if u = pageURL [] 3 2 then .ok respBadTotal
  else .error "unreachable"

/-- An envelope response holding both a non-empty plural field and a
singular entity. -/
def respBoth : HttpResponse :=
  { statusCode := 200, status := "200 OK", headers := [],
    setsBody := some { sets := [mkSet "P1", mkSet "P2"],
                       set := some (mkSet "S") },
    cardsBody := none, errBody := none }

/-- A network that answers every URL with `respBoth`. -/
def netBoth : Network := fun _ => .ok respBoth

/-- A first page whose link header value holds two `rel="next"`
segments, `/a` first and `/b` second. -/
def respDupNext : HttpResponse :=
  { statusCode := 200, status := "200 OK",
    headers := [("Link", ["</a>; rel=\"next\", </b>; rel=\"next\""])],
    setsBody := some { sets := [mkSet "first"], set := none },
    cardsBody := none, errBody := none }

/-- The page served at `/a` (one set named `viaA`, no further link). -/
def respViaA : HttpResponse :=
  { statusCode := 200, status := "200 OK", headers := [],
    setsBody := some { sets := [mkSet "viaA"], set := none },
    cardsBody := none, errBody := none }

/-- The page served at `/b` (one set named `viaB`, no further link). -/
def respViaB : HttpResponse :=
  { statusCode := 200, status := "200 OK", headers := [],
    setsBody := some { sets := [mkSet "viaB"], set := none },
    cardsBody := none, errBody := none }

/-- A network on which the first page advertises two `next` links: the
start URL of an unfiltered `All` yields `respDupNext`, and `/a` and `/b`
serve distinguishable follow-up pages. -/
def netDup : Network := fun u =>
  if u = allStartURL [] then .ok respDupNext
  else if u = "/a" then .ok respViaA
  else if u = "/b" then .ok respViaB
  else .error "unreachable"

/-- A response carrying two Link header values: the first holds no
`next` segment, the second holds one. -/
def respTwoLinkValues : HttpResponse :=
  { statusCode := 200, status := "200 OK",
    headers := [("Link", ["</x>; rel=\"prev\"", "</y>; rel=\"next\""])],
    setsBody := some { sets := [mkSet "L"], set := none },
    cardsBody := none, errBody := none }

/-- A network that answers every URL with `respTwoLinkValues`. -/
def netTwoLinkValues : Network := fun _ => .ok respTwoLinkValues

/-- A network on which every request fails at the transport level. -/
def netFail : Network := fun _ => .error "boom"

/-- A network whose every response is a two-set page (an ambiguous
answer to a singular set lookup). -/
def netTwoSets : Network := fun _ => .ok respNoTotal

/-- A success response whose cards envelope holds no singular card and
an empty plural list. -/
def respNoCards : HttpResponse :=
  { statusCode := 200, status := "200 OK", headers := [],
    setsBody := none, cardsBody := some { card := none, cards := [] },
    errBody := none }

/-- A network that answers every URL with `respNoCards`. -/
def netNoCards : Network := fun _ => .ok respNoCards

/-- The store holding the single accumulator allocated by
`NewSetQuery` on an empty store: identifier `0`, no entries. -/
def store0 : Store :=
  { queries := [(0, [])], nextId := 1 }

/-- An exhausted next URL stops the `All` loop at once with the
accumulated sets and no error, whatever the remaining fuel. -/
theorem allAux_emptyURL (net : Network) (fuel : Nat) (acc : List Set) :
    allAux net fuel "" acc = some (acc, none) := by
  cases fuel <;> simp [allAux]

/-- Claim C7: for every accumulator state, network and page number,
`Page(n)` returns exactly the same entity list, total count and error as
`PageS(n, 500)`. -/
theorem c7_page_is_pageS_500 (q : List (String × String)) (net : Network)
    (pageNum : Int) : Page q net pageNum = PageS q net pageNum 500 :=
  rfl

/-- Claim C5: on every non-success response, if the body decodes as the
error envelope the operation fails with the `ServerError` whose message
is the decoded `message` field, and if it does not decode the failure
carries the raw HTTP status line as its message. -/
theorem c5_checkError_messages (r : HttpResponse) (h : r.statusCode ≠ 200) :
    (∀ sv : ServerError, r.errBody = some sv →
        checkError r = some (.server sv) ∧
        (MtgErr.server sv).errorMessage = sv.message) ∧
    (r.errBody = none →
        checkError r = some (.rawStatus r.status) ∧
        (MtgErr.rawStatus r.status).errorMessage = r.status) := by
  constructor
  · intro sv hsv
    simp [checkError, h, hsv, MtgErr.errorMessage, ServerError.Error]
  · intro hnone
    simp [checkError, h, hnone, MtgErr.errorMessage]

/-- Witness for C5 at the two concrete non-success responses `ex404`
(decodable error envelope) and `ex500` (undecodable body). -/
theorem c5_checkError_messages_witness :
    (checkError ex404 = some (.server { status := "404", message := "Not Found" }) ∧
      (MtgErr.server { status := "404", message := "Not Found" }).errorMessage =
        "Not Found") ∧
    (checkError ex500 = some (.rawStatus "500 Internal Server Error") ∧
      (MtgErr.rawStatus "500 Internal Server Error").errorMessage =
        "500 Internal Server Error") := by
  refine ⟨?_, ?_⟩
  · exact (c5_checkError_messages ex404 (by decide)).1
      { status := "404", message := "Not Found" } rfl
  · exact (c5_checkError_messages ex500 (by decide)).2 rfl

/-- Claim C8: a successfully decoded envelope with a non-nil singular
field yields the one-element list holding that entity, even when the
plural field is non-empty; with the singular field absent the plural list
is returned. -/
theorem c8_envelope_precedence (net : Network) (url : String)
    (resp : HttpResponse) (sr : SetsEnvelope)
    (hnet : net url = .ok resp) (hok : resp.statusCode = 200)
    (hbody : resp.setsBody = some sr) :
    (∀ s : Set, sr.set = some s →
        fetchSets net url = .ok ([s], resp.headers)) ∧
    (sr.set = none → fetchSets net url = .ok (sr.sets, resp.headers)) := by
  constructor
  · intro s hs
    simp [fetchSets, hnet, checkError, hok, hbody, hs]
  · intro hs
    simp [fetchSets, hnet, checkError, hok, hbody, hs]

/-- Witness for C8 on `netBoth`, whose envelope holds the singular set
`mkSet "S"` alongside a two-element plural list: the result is the
one-element list of the singular set. -/
theorem c8_envelope_precedence_witness :
    fetchSets netBoth "any" = .ok ([mkSet "S"], respBoth.headers) :=
  (c8_envelope_precedence netBoth "any" respBoth
      { sets := [mkSet "P1", mkSet "P2"], set := some (mkSet "S") }
      rfl rfl rfl).1 (mkSet "S") rfl

/-- Claim C2: when the fetched page carries a `Total-Count` header value
that parses as an integer, `PageS` reports that integer as the total
count whatever the page's length; when the header is absent the reported
total is the page's entity count. -/
theorem c2_pageS_totalCount (q : List (String × String)) (net : Network)
    (pageNum pageSize : Int) (sets : List Set)
    (headers : List (String × List String))
    (hfetch : fetchSets net (pageURL q pageNum pageSize) =
      .ok (sets, headers)) :
    (∀ (t0 : String) (rest : List String) (n : Int),
        headerGet headers "Total-Count" = some (t0 :: rest) →
        Atoi t0 = some n →
        PageS q net pageNum pageSize = (sets, n, none)) ∧
    (headerGet headers "Total-Count" = none →
        PageS q net pageNum pageSize = (sets, (sets.length : Int), none)) := by
  constructor
  · intro t0 rest n hhdr hatoi
    simp [PageS, hfetch, hhdr, hatoi]
  · intro hhdr
    simp [PageS, hfetch, hhdr]

/-- Witness for C2 on `netPages`: page 1 carries `Total-Count: 1234` and
one entity, so the total is 1234; page 2 carries no such header and two
entities, so the total is 2. -/
theorem c2_pageS_totalCount_witness :
    PageS [] netPages 1 2 = ([mkSet "A"], 1234, none) ∧
    PageS [] netPages 2 2 = ([mkSet "A", mkSet "B"], 2, none) := by
  refine ⟨?_, ?_⟩
  · exact (c2_pageS_totalCount [] netPages 1 2 [mkSet "A"]
      [("Total-Count", ["1234"])] (by decide)).1 "1234" [] 1234 rfl (by decide)
  · exact (c2_pageS_totalCount [] netPages 2 2 [mkSet "A", mkSet "B"]
      [] (by decide)).2 rfl

/-- Claim C4: when the fetched page carries a `Total-Count` header value
that does not parse as an integer, `PageS` fails with the format error
and returns no entities and a zero total. -/
theorem c4_pageS_formatError (q : List (String × String)) (net : Network)
    (pageNum pageSize : Int) (sets : List Set)
    (headers : List (String × List String)) (t0 : String)
    (rest : List String)
    (hfetch : fetchSets net (pageURL q pageNum pageSize) =
      .ok (sets, headers))
    (hhdr : headerGet headers "Total-Count" = some (t0 :: rest))
    (hatoi : Atoi t0 = none) :
    PageS q net pageNum pageSize = ([], 0, some (.format t0)) := by
  simp [PageS, hfetch, hhdr, hatoi]

/-- Witness for C4 on `netPages`: page 3 carries
`Total-Count: not-a-number`, so `PageS` returns no sets, total 0 and the
format error. -/
theorem c4_pageS_formatError_witness :
    PageS [] netPages 3 2 = ([], 0, some (.format "not-a-number")) :=
  c4_pageS_formatError [] netPages 3 2 [mkSet "A"]
    [("Total-Count", ["not-a-number"])] "not-a-number" [] (by decide) rfl
    (by decide)

/-- Claim C6: `All` fails fast — whenever the loop result carries an
error, the entity list is empty (accumulated pages are discarded), and a
fetch failure at the current URL ends the loop at once with exactly that
error and no entities. -/
theorem c6_all_fail_fast :
    (∀ (net : Network) (fuel : Nat) (url : String) (acc sets : List Set)
        (e : MtgErr),
      allAux net fuel url acc = some (sets, some e) → sets = []) ∧
    (∀ (net : Network) (fuel : Nat) (url : String) (acc : List Set)
        (e : MtgErr),
      url ≠ "" → fetchSets net url = .error e →
      allAux net (fuel + 1) url acc = some ([], some e)) := by
  constructor
  · intro net fuel
    induction fuel with
    | zero =>
      intro url acc sets e h
      by_cases hurl : url = "" <;> simp [allAux, hurl] at h
    | succ n ih =>
      intro url acc sets e h
      by_cases hurl : url = ""
      · simp [allAux, hurl] at h
      · rw [allAux, if_neg hurl] at h
        cases hf : fetchSets net url with
        | error e2 =>
          rw [hf] at h
          simp at h
          exact h.1
        | ok pr =>
          rw [hf] at h
          exact ih (nextURLOfHeader pr.2) (acc ++ pr.1) sets e h
  · intro net fuel url acc e hurl hf
    rw [allAux, if_neg hurl, hf]

/-- Witness for C6 on `netFail`, where every fetch fails at the
transport level: `All` starting from a non-empty accumulator returns no
sets and the transport error. -/
theorem c6_all_fail_fast_witness :
    allAux netFail 1 "page1" [mkSet "old"] =
      some ([], some (.transport "boom")) :=
  c6_all_fail_fast.2 netFail 0 "page1" [mkSet "old"] (.transport "boom")
    (by decide) rfl

/-- Claim C10: only the first Link header value is parsed — the next URL
computed from a response is a function of the first value alone, and when
that first value yields no `next` segment the `All` traversal ends after
the current page even if a later header value holds a `next` segment. -/
theorem c10_only_first_link_value :
    (∀ (headers : List (String × List String)) (v1 : String)
        (rest : List String),
      headerGet headers "Link" = some (v1 :: rest) →
      nextURLOfHeader headers = scanNext (splitComma v1)) ∧
    (∀ (net : Network) (fuel : Nat) (url : String) (acc sets : List Set)
        (headers : List (String × List String)) (v1 : String)
        (rest : List String),
      url ≠ "" →
      fetchSets net url = .ok (sets, headers) →
      headerGet headers "Link" = some (v1 :: rest) →
      scanNext (splitComma v1) = "" →
      allAux net (fuel + 1) url acc = some (acc ++ sets, none)) := by
  have hfirst : ∀ (headers : List (String × List String)) (v1 : String)
      (rest : List String),
      headerGet headers "Link" = some (v1 :: rest) →
      nextURLOfHeader headers = scanNext (splitComma v1) := by
    intro headers v1 rest h
    simp [nextURLOfHeader, h]
  refine ⟨hfirst, ?_⟩
  intro net fuel url acc sets headers v1 rest hurl hf hlink hnone
  rw [allAux, if_neg hurl, hf]
  simp only
  rw [hfirst headers v1 rest hlink, hnone, allAux_emptyURL]

/-- Witness for C10 on `netTwoLinkValues`: the response carries two Link
header values, the first without a `next` segment and the second with
one; the traversal nevertheless stops after the first page. -/
theorem c10_only_first_link_value_witness :
    allAux netTwoLinkValues 1 "page1" [] = some ([mkSet "L"], none) :=
  c10_only_first_link_value.2 netTwoLinkValues 0 "page1" [] [mkSet "L"]
    [("Link", ["</x>; rel=\"prev\"", "</y>; rel=\"next\""])]
    "</x>; rel=\"prev\"" ["</y>; rel=\"next\""]
    (by decide) rfl rfl (by decide)

/-- The overwriting fold of the link-segment loop computes the URL of
the last `next` segment (or its start value when there is none). -/
theorem foldl_scanStep (parts : List String) :
    ∀ acc : String, parts.foldl scanStep acc = (lastNext parts).getD acc := by
  induction parts with
  | nil =>
    intro acc
    simp [lastNext]
  | cons p ps ih =>
    intro acc
    rw [List.foldl_cons, ih]
    rw [show lastNext (p :: ps) =
        (match lastNext ps with
         | some u => some u
         | none =>
           match linkMatch p with
           | some m => if m.2 = "next" then some m.1 else none
           | none => none) from rfl]
    cases h : lastNext ps with
    | some u => simp
    | none =>
      cases hm : linkMatch p with
      | none => simp [scanStep, hm]
      | some m =>
        by_cases hrel : m.2 = "next" <;> simp [scanStep, hm, hrel]

/-- Claim C1 (amended): for every Link header value, the next-page URL
used by `All` is the URL of the LAST `rel="next"` segment in
left-to-right scan order (the loop overwrites earlier matches), not the
first. -/
theorem c1_next_url_last_wins (headers : List (String × List String))
    (v1 : String) (rest : List String)
    (h : headerGet headers "Link" = some (v1 :: rest)) :
    nextURLOfHeader headers = (lastNext (splitComma v1)).getD "" := by
  simp only [nextURLOfHeader, h, List.headD, scanNext]
  exact foldl_scanStep (splitComma v1) ""

/-- Witness for the amended C1 on the duplicate-next header of
`respDupNext`, where the last of the two `next` segments names `/b`. -/
theorem c1_next_url_last_wins_witness :
    nextURLOfHeader [("Link", ["</a>; rel=\"next\", </b>; rel=\"next\""])] =
      (lastNext (splitComma "</a>; rel=\"next\", </b>; rel=\"next\"")).getD
        "" ∧
    (lastNext (splitComma "</a>; rel=\"next\", </b>; rel=\"next\"")).getD
        "" = "/b" :=
  ⟨c1_next_url_last_wins [("Link", ["</a>; rel=\"next\", </b>; rel=\"next\""])]
      "</a>; rel=\"next\", </b>; rel=\"next\"" [] rfl,
    by decide⟩

/-- Counterexample to C1 as stated: on `netDup` the first page's Link
header value holds two `rel="next"` segments, `</a>; ...` first and
`</b>; ...` second; `All` follows `/b`, the LAST one, so the result
contains the page served at `/b` and not the page served at `/a` that
the first segment names. -/
theorem c1_first_next_counterexample :
    All [] netDup 2 = some ([mkSet "first", mkSet "viaB"], none) ∧
    nextURLOfHeader [("Link", ["</a>; rel=\"next\", </b>; rel=\"next\""])] =
      "/b" ∧
    ("/b" : String) ≠ "/a" ∧
    some ([mkSet "first", mkSet "viaB"], (none : Option MtgErr)) ≠
      some ([mkSet "first", mkSet "viaA"], (none : Option MtgErr)) := by
  refine ⟨by decide, by decide, by decide, by decide⟩

/-- Claim C9: a singular lookup whose successful response decodes to a
list of length other than one fails with the not-found error — for
`SetCode.Fetch` on the sets endpoint and for `Fetch` on the cards
endpoint. -/
theorem c9_singular_lookup_notFound :
    (∀ (net : Network) (code : SetCode) (sets : List Set)
        (headers : List (String × List String)),
      fetchSets net (queryURL ++ "sets/" ++ code) = .ok (sets, headers) →
      sets.length ≠ 1 →
      SetCode.Fetch net code =
        .error (.notFound ("Set \"" ++ code ++ "\" not found"))) ∧
    (∀ (net : Network) (filterID : String) (resp : HttpResponse)
        (cards : List Card),
      net (queryURL ++ "cards/" ++ filterID) = .ok resp →
      checkError resp = none →
      decodeCards resp.cardsBody = .ok cards →
      cards.length ≠ 1 →
      Fetch net filterID =
        .error (.notFound ("Card with ID " ++ filterID ++ " not found"))) := by
  constructor
  · intro net code sets headers hfetch hlen
    rw [SetCode.Fetch, hfetch]
    match sets, hlen with
    | [], _ => rfl
    | [s0], h => exact absurd rfl h
    | s0 :: s1 :: t, _ => rfl
  · intro net filterID resp cards hnet hcheck hdec hlen
    rw [Fetch, hnet]
    simp only [hcheck, hdec]
    match cards, hlen with
    | [], _ => rfl
    | [c0], h => exact absurd rfl h
    | c0 :: c1 :: t, _ => rfl

/-- Witness for C9: on `netTwoSets` the set lookup decodes two sets and
fails as not found; on `netNoCards` the card lookup decodes zero cards
and fails as not found. -/
theorem c9_singular_lookup_notFound_witness :
    SetCode.Fetch netTwoSets "AB" =
      .error (.notFound "Set \"AB\" not found") ∧
    Fetch netNoCards "xyz" =
      .error (.notFound "Card with ID xyz not found") :=
  ⟨c9_singular_lookup_notFound.1 netTwoSets "AB" [mkSet "A", mkSet "B"] []
      rfl (by decide),
    c9_singular_lookup_notFound.2 netNoCards "xyz" respNoCards [] rfl rfl rfl
      (by decide)⟩

/-- Setting a key always makes it effective: the value just written is
the one looked up. -/
theorem mapGet_mapSet_self (m : List (String × String)) (k v : String) :
    mapGet (mapSet m k v) k = some v := by
  induction m with
  | nil => simp [mapSet, mapGet]
  | cons p rest ih =>
    by_cases h : p.1 = k
    · simp [mapSet, mapGet, h]
    · simp [mapSet, mapGet, h, ih]

/-- Unfolding of `countKey` at a cons cell. -/
theorem countKey_cons (p : String × String) (rest : List (String × String))
    (k : String) :
    countKey (p :: rest) k = (if p.1 = k then 1 else 0) + countKey rest k :=
  rfl

/-- Unfolding of `mapSet` at a cons cell. -/
theorem mapSet_cons (p : String × String) (rest : List (String × String))
    (k v : String) :
    mapSet (p :: rest) k v =
      if p.1 = k then (k, v) :: rest else p :: mapSet rest k v :=
  rfl

/-- Unfolding of `qfind` at a cons cell. -/
theorem qfind_cons (p : Nat × List (String × String))
    (rest : List (Nat × List (String × String))) (i : Nat) :
    qfind (p :: rest) i = if p.1 = i then some p.2 else qfind rest i :=
  rfl

/-- Setting a key on a map holding it at most once leaves exactly one
binding for that key. -/
theorem countKey_mapSet (m : List (String × String)) (k v : String)
    (h : countKey m k ≤ 1) : countKey (mapSet m k v) k = 1 := by
  induction m with
  | nil => simp [mapSet, countKey]
  | cons p rest ih =>
    by_cases hp : p.1 = k
    · have h0 : countKey rest k = 0 := by
        rw [countKey_cons, if_pos hp] at h
        omega
      rw [mapSet_cons, if_pos hp, countKey_cons, if_pos rfl, h0]
    · rw [countKey_cons, if_neg hp] at h
      rw [mapSet_cons, if_neg hp, countKey_cons, if_neg hp]
      have := ih (by omega)
      omega

/-- Updating the accumulator `j` leaves the entries of any other
identifier untouched. -/
theorem qfind_qupdate_ne (qs : List (Nat × List (String × String)))
    (i j : Nat) (c v : String) (h : i ≠ j) :
    qfind (qupdate qs j c v) i = qfind qs i := by
  induction qs with
  | nil => rfl
  | cons p rest ih =>
    show qfind ((if p.1 = j then (p.1, mapSet p.2 c v) else p) ::
      qupdate rest j c v) i = qfind (p :: rest) i
    by_cases hp : p.1 = j
    · have hpi : ¬ p.1 = i := fun hc => h (hc ▸ hp)
      rw [if_pos hp, qfind_cons, qfind_cons, if_neg hpi, if_neg hpi, ih]
    · rw [if_neg hp, qfind_cons, qfind_cons, ih]

/-- Updating the accumulator `i` rewrites its entries with `mapSet`. -/
theorem qfind_qupdate_eq (qs : List (Nat × List (String × String)))
    (i : Nat) (c v : String) (m : List (String × String))
    (h : qfind qs i = some m) :
    qfind (qupdate qs i c v) i = some (mapSet m c v) := by
  induction qs with
  | nil => exact Option.noConfusion h
  | cons p rest ih =>
    show qfind ((if p.1 = i then (p.1, mapSet p.2 c v) else p) ::
      qupdate rest i c v) i = some (mapSet m c v)
    by_cases hp : p.1 = i
    · rw [qfind_cons, if_pos hp] at h
      injection h with h2
      rw [if_pos hp, qfind_cons, if_pos hp, h2]
    · rw [qfind_cons, if_neg hp] at h
      rw [if_neg hp, qfind_cons, if_neg hp]
      exact ih h

/-- A sequence of `Where` calls on accumulator `j` leaves the entries of
any other identifier untouched. -/
theorem entries_applyWheres_ne (ops : List (String × String)) :
    ∀ (s : Store) (i j : Nat), i ≠ j →
      (applyWheres s j ops).entries i = s.entries i := by
  induction ops with
  | nil => intro s i j _; rfl
  | cons op rest ih =>
    intro s i j h
    show (applyWheres (Where s j op.1 op.2) j rest).entries i = s.entries i
    rw [ih (Where s j op.1 op.2) i j h]
    exact qfind_qupdate_ne s.queries i j op.1 op.2 h

/-- An identifier present in the store is below the allocation bound. -/
theorem qfind_lt_bound (qs : List (Nat × List (String × String)))
    (i n : Nat) (m : List (String × String))
    (hb : ∀ p ∈ qs, p.1 < n) (h : qfind qs i = some m) : i < n := by
  induction qs with
  | nil => exact Option.noConfusion h
  | cons p rest ih =>
    by_cases hp : p.1 = i
    · have := hb p (List.mem_cons_self p rest)
      omega
    · rw [qfind_cons, if_neg hp] at h
      exact ih (fun q hq => hb q (List.mem_cons_of_mem p hq)) h

/-- Claim C3: on every store, setting the same column twice on an
accumulator leaves exactly one effective binding for that column holding
the last value set; and after `Copy`, any sequence of `Where` calls on
the copy leaves the original's entries unchanged, and any sequence of
`Where` calls on the original leaves the copy's entries unchanged. -/
theorem c3_accumulator (s : Store) (i : Nat)
    (m : List (String × String)) (c v1 v2 : String)
    (ops : List (String × String))
    (hm : s.entries i = some m)
    (hdup : countKey m c ≤ 1)
    (hbound : ∀ p ∈ s.queries, p.1 < s.nextId) :
    ((Where (Where s i c v1) i c v2).entries i =
        some (mapSet (mapSet m c v1) c v2) ∧
      mapGet (mapSet (mapSet m c v1) c v2) c = some v2 ∧
      countKey (mapSet (mapSet m c v1) c v2) c = 1) ∧
    (applyWheres (Copy s i).1 (Copy s i).2 ops).entries i = some m ∧
    (applyWheres (Copy s i).1 i ops).entries (Copy s i).2 = some m := by
  have hlt : i < s.nextId := qfind_lt_bound s.queries i s.nextId m hbound hm
  have hne : i ≠ s.nextId := Nat.ne_of_lt hlt
  have hentries : (Copy s i).1.entries i = some m := by
    show qfind ((s.nextId, (s.entries i).getD []) :: s.queries) i = some m
    rw [qfind_cons, if_neg (fun hc => hne hc.symm)]
    exact hm
  refine ⟨⟨?_, mapGet_mapSet_self (mapSet m c v1) c v2, ?_⟩, ?_, ?_⟩
  · have h1 : (Where s i c v1).entries i = some (mapSet m c v1) :=
      qfind_qupdate_eq s.queries i c v1 m hm
    exact qfind_qupdate_eq (Where s i c v1).queries i c v2 (mapSet m c v1) h1
  · exact countKey_mapSet (mapSet m c v1) c v2
      (le_of_eq (countKey_mapSet m c v1 hdup))
  · rw [entries_applyWheres_ne ops (Copy s i).1 i ((Copy s i).2) hne]
    exact hentries
  · rw [entries_applyWheres_ne ops (Copy s i).1 ((Copy s i).2) i
      (fun hc => hne hc.symm)]
    show qfind ((s.nextId, (s.entries i).getD []) :: s.queries) s.nextId =
      some m
    rw [qfind_cons, if_pos rfl, hm]
    rfl

/-- Witness for C3 on the one-accumulator store `store0`: column `name`
set to `x` then `y` leaves the single binding `(name, y)`, and a `Where`
on the copy (respectively the original) leaves the original
(respectively the copy) holding its old entries. -/
theorem c3_accumulator_witness :
    ((Where (Where store0 0 "name" "x") 0 "name" "y").entries 0 =
        some (mapSet (mapSet [] "name" "x") "name" "y") ∧
      mapGet (mapSet (mapSet [] "name" "x") "name" "y") "name" = some "y" ∧
      countKey (mapSet (mapSet [] "name" "x") "name" "y") "name" = 1) ∧
    (applyWheres (Copy store0 0).1 (Copy store0 0).2
        [("block", "z")]).entries 0 = some [] ∧
    (applyWheres (Copy store0 0).1 0 [("block", "z")]).entries
        (Copy store0 0).2 = some [] :=
  c3_accumulator store0 0 [] "name" "x" "y" [("block", "z")] rfl
    (by decide) (by decide)

end Mtg
